import Mathlib

/-
  Verification of the ShipOrSkip repository against its specification.

  The repository is a Next.js frontend, a thin API client, and Supabase SQL
  migrations.  JavaScript strings are embedded as lists of characters so that
  every definition evaluates inside the kernel; SQL tables are embedded as
  lists of row records.  Components of the backend pipeline that are not part
  of the repository snapshot are modelled from the specification and are
  marked as such in their doc comments.
-/

set_option maxRecDepth 10000

namespace ShipOrSkip

/- ────────────────────────────────────────────────────────────────────────
   JavaScript string model.  A JS string is a sequence of characters; the
   string operations used by the sources (split, startsWith, slice, trim,
   toLowerCase, endsWith-slash) are given their charwise semantics.
   ──────────────────────────────────────────────────────────────────────── -/

abbrev JStr := List Char

/-- JS `s.split("\n\n")`: split into blocks at every (leftmost, non-overlapping)
blank line.  Always returns at least one element. -/
def splitBlocks : JStr → List JStr
  | [] => [[]]
  | '\n' :: '\n' :: rest => [] :: splitBlocks rest
  | c :: rest =>
    match splitBlocks rest with
    | [] => [[c]]
    | h :: t => (c :: h) :: t

/-- JS `s.split("\n")`: split into lines at every newline. -/
def splitLines : JStr → List JStr
  | [] => [[]]
  | c :: rest =>
    if c = '\n' then [] :: splitLines rest
    else
      match splitLines rest with
      | [] => [[c]]
      | h :: t => (c :: h) :: t

/-- JS `s.toLowerCase()`. -/
def jsLower (s : JStr) : JStr := s.map Char.toLower

/-- JS `s.trim()`: drop whitespace from both ends. -/
def jsTrim (s : JStr) : JStr :=
  ((s.dropWhile Char.isWhitespace).reverse.dropWhile Char.isWhitespace).reverse

/-- JS `s.replace(/\/$/, "")`: strip one trailing slash if present. -/
def stripTrailingSlash (s : JStr) : JStr :=
  if s.getLast? = some '/' then s.dropLast else s

/- ────────────────────────────────────────────────────────────────────────
   SSE stream client, from `analyzeDeepStream` (src/unnamed/part_010).
   The JSON decoder is a parameter (JS `JSON.parse` throwing is modelled as
   returning `none`); the `.message` field access of a decoded payload is a
   second parameter.  Callback invocations are reified as an event list.
   ──────────────────────────────────────────────────────────────────────── -/

/-- One callback invocation of `analyzeDeepStream`: `onProgress(data.message)`,
`onDone(data)` or `onError(data.message)`. -/
inductive Emit (J : Type) where
  | progress (msg : Option JStr)
  | done (payload : J)
  | error (msg : Option JStr)
  deriving DecidableEq

/-- The prefix `"data: "` looked up by `analyzeDeepStream`. -/
def dataLinePre : JStr := "data: ".toList

/-- The prefix `"event: "` looked up by `analyzeDeepStream`. -/
def eventLinePre : JStr := "event: ".toList

/-- `lines.find(l => l.startsWith(pre))`. -/
def findLine (pre : JStr) (lines : List JStr) : Option JStr :=
  lines.find? (fun l => pre.isPrefixOf l)

/-- `eventLine?.slice(7) || "message"` from `analyzeDeepStream`. -/
def eventName (lines : List JStr) : JStr :=
  match findLine eventLinePre lines with
  | none => "message".toList
  | some l =>
    match l.drop 7 with
    | [] => "message".toList
    | e => e

/-- The body of the per-block loop of `analyzeDeepStream`
(src/unnamed/part_010, lines 61-73): comment blocks (leading `:`) are
skipped, a block without a `data: ` line is skipped, the payload after
`data: ` is JSON-decoded (a parse failure is caught and dropped), and the
matching callback fires according to the block's event name. -/
def processBlock {J : Type} (parse : JStr → Option J) (msg : J → Option JStr)
    (block : JStr) : List (Emit J) :=
  if block.head? = some ':' then []
  else
    let lines := splitLines block
    match findLine dataLinePre lines with
    | none => []
    | some dl =>
      match parse (dl.drop 6) with
      | none => []
      | some d =>
        let ev := eventName lines
        if ev = "progress".toList then [Emit.progress (msg d)]
        else if ev = "done".toList then [Emit.done d]
        else if ev = "error".toList then [Emit.error (msg d)]
        else []

/-- The read loop of `analyzeDeepStream` (src/unnamed/part_010, lines 54-74):
each decoded chunk is appended to the carry buffer, the buffer is split on
blank lines, the last piece becomes the new carry buffer (`blocks.pop() || ""`)
and every completed block is processed in order. -/
def feedChunks {J : Type} (parse : JStr → Option J) (msg : J → Option JStr) :
    JStr → List JStr → List (Emit J)
  | _, [] => []
  | buffer, c :: cs =>
    let blocks := splitBlocks (buffer ++ c)
    blocks.dropLast.flatMap (processBlock parse msg) ++
      feedChunks parse msg (blocks.getLast?.getD []) cs

/-- The sequence of completed blocks the loop of `analyzeDeepStream` processes
for a given chunk sequence (independently of any callback). -/
def completedBlocks : JStr → List JStr → List JStr
  | _, [] => []
  | buffer, c :: cs =>
    let blocks := splitBlocks (buffer ++ c)
    blocks.dropLast ++ completedBlocks (blocks.getLast?.getD []) cs

/- ────────────────────────────────────────────────────────────────────────
   Result presentation, from the dashboard page
   (src/frontend/app/appgroup/dashboard/page.tsx).
   ──────────────────────────────────────────────────────────────────────── -/

/-- `CompetitorItem` from the dashboard page: `name` and `description` are
required, `differentiator`, `url` and `threat_level` are optional. -/
structure CompetitorItem where
  name : JStr
  description : JStr
  differentiator : Option JStr
  url : Option JStr
  threat_level : Option JStr
  deriving DecidableEq

/-- `RawSource` from the dashboard page: all fields required.  The numeric
relevance score is only carried, never computed on, by the code under study. -/
structure RawSource where
  title : JStr
  url : JStr
  snippet : JStr
  source_type : JStr
  score : Int
  deriving DecidableEq

/-- `toLowerCase().trim()`, applied to competitor names and source titles. -/
def normText (s : JStr) : JStr := jsTrim (jsLower s)

/-- `toLowerCase().replace(/\/$/, "")`, applied to competitor and source URLs. -/
def normUrl (s : JStr) : JStr := stripTrailingSlash (jsLower s)

/-- `c.url?.toLowerCase().replace(/\/$/, "") || ""`: the URL key a competitor
contributes to the dedup set; a competitor without a URL contributes `""`. -/
def competitorUrlKey (c : CompetitorItem) : JStr :=
  match c.url with
  | some u => normUrl u
  | none => []

/-- `extraSources` from the dashboard page (lines 468-476): the raw sources
whose normalized URL is in neither the competitor-URL set nor whose normalized
title is in the competitor-name set. -/
def extraSources (cs : List CompetitorItem) (rs : List RawSource) : List RawSource :=
  let names := cs.map (fun c => normText c.name)
  let urls := cs.map competitorUrlKey
  rs.filter (fun s => !urls.contains (normUrl s.url) && !names.contains (normText s.title))

/-- The additional-sources set as the claim words it: the elements of the raw
source list whose normalized URL (case-folded, trailing slash stripped) is not
the normalized URL of any competitor and whose normalized title (case-folded,
trimmed) is not the normalized name of any competitor. -/
def extraSourcesSpec (cs : List CompetitorItem) (rs : List RawSource) : List RawSource :=
  rs.filter (fun s =>
    decide ((∀ c ∈ cs, competitorUrlKey c ≠ normUrl s.url) ∧
            (∀ c ∈ cs, normText c.name ≠ normText s.title)))

/- ────────────────────────────────────────────────────────────────────────
   Database layer, from src/supabase/migrations/001_initial.sql and
   003_security_and_resilience.sql.  A table is a list of row records;
   DATE and TIMESTAMPTZ values are day numbers / clock values.
   ──────────────────────────────────────────────────────────────────────── -/

/-- A row of the `profiles` table (001_initial.sql, lines 5-13). -/
structure Profile where
  id : String
  display_name : Option String
  tier : String
  deep_research_count : Int
  last_reset_date : Nat
  stripe_customer_id : Option String
  created_at : Nat
  deriving DecidableEq

/-- The `increment_deep_count` RPC (001_initial.sql, lines 79-87): one SQL
`UPDATE` that unconditionally adds 1 to `deep_research_count` and sets
`last_reset_date` to the current date on every row whose `id` matches the
argument.  It performs no quota comparison. -/
def increment_deep_count (today : Nat) (user_id_input : String) (db : List Profile) :
    List Profile :=
  db.map (fun r =>
    if r.id = user_id_input then
      { r with deep_research_count := r.deep_research_count + 1,
               last_reset_date := today }
    else r)

/-- A row of the `anon_usage` table (003_security_and_resilience.sql, lines
42-47).  Its only columns are the hashed key, the two counters and the
creation timestamp: the table stores no last-reset date. -/
structure AnonUsage where
  ip_hash : String
  fast_count : Int
  deep_count : Int
  created_at : Nat
  deriving DecidableEq

/-- Modelled from the spec: the backend quota check for authenticated
identities is not part of the repository snapshot (only the `profiles`
schema and the `increment_deep_count` RPC are).  Per the spec, "counts reset
to zero when the stored date differs from the current date (daily window)"
and "daily windows reset based on a stored last-reset date compared against
the current date at check time"; the stored counter of the profile is
therefore zeroed at check time whenever `last_reset_date` differs from the
current date. -/
def profileAtCheck (today : Nat) (p : Profile) : Profile :=
  if p.last_reset_date = today then p
  else { p with deep_research_count := 0, last_reset_date := today }

/-- Modelled from the spec: the backend quota check for anonymous identities
is not part of the repository snapshot.  It is constrained by the `anon_usage`
schema in src (003_security_and_resilience.sql), which stores no last-reset
date, so the check has no stored date to compare against the current date and
leaves the stored counters untouched; the in-repo feature copy
(src/unnamed/part_001) accordingly advertises the guest allowances as
lifetime totals ("3 Fast Analyses Total", "1 Deep Research Total") rather
than daily allowances. -/
def anonAtCheck (_today : Nat) (r : AnonUsage) : AnonUsage := r

/-- The `status` column of the `research` table
(001_initial.sql, line 34): `CHECK (status IN ('pending', 'processing',
'completed', 'failed'))`. -/
inductive RStatus where
  | pending
  | processing
  | completed
  | failed
  deriving DecidableEq

/-- A row of the `research` table (001_initial.sql, lines 27-37).  The JSONB
`result` payload is kept as a flat key/value object, which is all the code
under study ever builds for it. -/
structure ResearchRow where
  id : String
  user_id : Option String
  idea_text : String
  category : Option String
  analysis_type : String
  result : Option (List (String × String))
  status : RStatus
  notes : Option String
  created_at : Int
  deriving DecidableEq

/-- `INTERVAL '10 minutes'`, in seconds. -/
def tenMinutes : Int := 600

/-- The JSONB object `jsonb_build_object('error', 'Research timed out after
10 minutes')` written by the janitor. -/
def timeoutResult : List (String × String) :=
  [("error", "Research timed out after 10 minutes")]

/-- The `cleanup_stuck_research` janitor
(003_security_and_resilience.sql, lines 19-33): one SQL `UPDATE` that marks
as `failed`, with a timeout error recorded in `result`, every row that is
`processing` and older than 10 minutes, and returns the affected row count. -/
def cleanup_stuck_research (now : Int) (db : List ResearchRow) :
    List ResearchRow × Nat :=
  (db.map (fun r =>
      if r.status = RStatus.processing ∧ r.created_at < now - tenMinutes then
        { r with status := RStatus.failed, result := some timeoutResult }
      else r),
   db.countP (fun r =>
      decide (r.status = RStatus.processing ∧ r.created_at < now - tenMinutes)))

/- ────────────────────────────────────────────────────────────────────────
   Row-level security on the `research` table, from the policies of
   001_initial.sql (lines 41-52) and part_012 (lines 14-16).  RLS is enabled
   with no policies for `anon`, so access is the disjunction of the
   permissive policies, each targeted `TO authenticated`.
   ──────────────────────────────────────────────────────────────────────── -/

/-- A SQL command kind gated by row-level security. -/
inductive SqlCmd where
  | selectCmd
  | insertCmd
  | updateCmd
  | deleteCmd
  deriving DecidableEq

/-- The role a request reaches the database with: the anonymous API role or
an authenticated identity (`auth.uid()` is its id). -/
inductive ApiRole where
  | anon
  | authenticated (uid : String)
  deriving DecidableEq

/-- `auth.uid()`: `NULL` for the anonymous role. -/
def authUid : ApiRole → Option String
  | ApiRole.anon => none
  | ApiRole.authenticated uid => some uid

/-- The single predicate used by every `research` policy:
`(SELECT auth.uid()) = user_id`.  SQL equality against `NULL` (on either
side) is not true, so the row passes only when both sides are non-null and
equal. -/
inductive RlsClause where
  | uidEqUserId
  deriving DecidableEq

/-- Evaluate a policy clause on a role and a row. -/
def evalClause : RlsClause → ApiRole → ResearchRow → Bool
  | RlsClause.uidEqUserId, role, row =>
    match authUid role, row.user_id with
    | some a, some b => a = b
    | _, _ => false

/-- One `CREATE POLICY ... ON research` statement: the command it gates,
whether it is targeted `TO authenticated`, and its `USING` / `WITH CHECK`
clauses. -/
structure RlsPolicy where
  cmd : SqlCmd
  targetAuthenticated : Bool
  usingClause : Option RlsClause
  checkClause : Option RlsClause
  deriving DecidableEq

/-- The four policies on `research`: view / insert / update (001_initial.sql)
and delete (part_012), all `TO authenticated` with
`(SELECT auth.uid()) = user_id`. -/
def researchPolicies : List RlsPolicy :=
  [ { cmd := SqlCmd.selectCmd, targetAuthenticated := true,
      usingClause := some RlsClause.uidEqUserId, checkClause := none },
    { cmd := SqlCmd.insertCmd, targetAuthenticated := true,
      usingClause := none, checkClause := some RlsClause.uidEqUserId },
    { cmd := SqlCmd.updateCmd, targetAuthenticated := true,
      usingClause := some RlsClause.uidEqUserId,
      checkClause := some RlsClause.uidEqUserId },
    { cmd := SqlCmd.deleteCmd, targetAuthenticated := true,
      usingClause := some RlsClause.uidEqUserId, checkClause := none } ]

/-- Whether a policy applies to a command issued under a role. -/
def policyApplies (p : RlsPolicy) (role : ApiRole) (cmd : SqlCmd) : Bool :=
  p.cmd = cmd &&
    (if p.targetAuthenticated then
       match role with
       | ApiRole.authenticated _ => true
       | ApiRole.anon => false
     else true)

/-- Permissive row-level security over a policy list: the operation on a row
is allowed iff some applicable policy passes its `USING` clause on the
existing row and its `WITH CHECK` clause on the new row.  With row-level
security enabled and no applicable policy, access is denied. -/
def rlsAllows (ps : List RlsPolicy) (role : ApiRole) (cmd : SqlCmd)
    (old new : ResearchRow) : Bool :=
  ps.any (fun p =>
    policyApplies p role cmd &&
    (match p.usingClause with
     | none => true
     | some c => evalClause c role old) &&
    (match p.checkClause with
     | none => true
     | some c => evalClause c role new))

/- ────────────────────────────────────────────────────────────────────────
   Research status operations.  The janitor comes from src; the pipeline
   transitions and the user's notes mutation are modelled from the spec.
   ──────────────────────────────────────────────────────────────────────── -/

/-- Modelled from the spec: the backend pipeline's status mutations are not
part of the repository snapshot.  Per the spec's ResearchRecord contract,
status moves `pending` → `processing` → `completed` | `failed`, the pipeline
mutates status/result, the user mutates notes, and the janitor
(`cleanup_stuck_research`, from src) sweeps a `processing` row older than 10
minutes to `failed` with a timeout error recorded in its result. -/
inductive RowStep : ResearchRow → ResearchRow → Prop where
  | markProcessing (r : ResearchRow) (h : r.status = RStatus.pending) :
      RowStep r { r with status := RStatus.processing }
  | complete (r : ResearchRow) (res : List (String × String))
      (h : r.status = RStatus.processing) :
      RowStep r { r with status := RStatus.completed, result := some res }
  | fail (r : ResearchRow) (res : List (String × String))
      (h : r.status = RStatus.processing) :
      RowStep r { r with status := RStatus.failed, result := some res }
  | setNotes (r : ResearchRow) (n : String) :
      RowStep r { r with notes := some n }
  | sweep (r : ResearchRow) (now : Int) (h : r.status = RStatus.processing)
      (hold : r.created_at < now - tenMinutes) :
      RowStep r { r with status := RStatus.failed, result := some timeoutResult }

/- ────────────────────────────────────────────────────────────────────────
   Concurrent quota admission.  The storage-layer increment is
   `increment_deep_count` from src; the admission check is modelled from the
   spec's UsageCounter contract.
   ──────────────────────────────────────────────────────────────────────── -/

/-- The phase of one in-flight deep-research request. -/
inductive ReqPhase where
  | started
  | granted
  | denied
  | admitted
  deriving DecidableEq

/-- Shared state raced on by concurrent requests: the `profiles` table plus
the phase of each request. -/
structure RaceState where
  db : List Profile
  reqs : List ReqPhase
  deriving DecidableEq

/-- The identity's stored deep count, as read by the admission check. -/
def deepCountOf (u : String) (db : List Profile) : Int :=
  match db.find? (fun r => r.id = u) with
  | some r => r.deep_research_count
  | none => 0

/-- Modelled from the spec: the backend admission gate is not part of the
repository snapshot.  Per the spec's UsageCounter contract it is "read
(without mutation) to decide admission before starting work", and the
consumed unit is committed afterwards through the storage RPC
`increment_deep_count` (001_initial.sql), which increments unconditionally
and performs no quota comparison.  Each step is atomic at the storage layer;
distinct requests' check and commit steps interleave freely. -/
inductive RaceStep (limit : Int) (today : Nat) (u : String) :
    RaceState → RaceState → Prop where
  | checkGrant (db : List Profile) (reqs : List ReqPhase) (i : Nat)
      (hi : reqs.get? i = some ReqPhase.started)
      (hq : deepCountOf u db < limit) :
      RaceStep limit today u ⟨db, reqs⟩ ⟨db, reqs.set i ReqPhase.granted⟩
  | checkDeny (db : List Profile) (reqs : List ReqPhase) (i : Nat)
      (hi : reqs.get? i = some ReqPhase.started)
      (hq : ¬ deepCountOf u db < limit) :
      RaceStep limit today u ⟨db, reqs⟩ ⟨db, reqs.set i ReqPhase.denied⟩
  | commit (db : List Profile) (reqs : List ReqPhase) (i : Nat)
      (hi : reqs.get? i = some ReqPhase.granted) :
      RaceStep limit today u ⟨db, reqs⟩
        ⟨increment_deep_count today u db, reqs.set i ReqPhase.admitted⟩

/-- How many requests have been admitted (their quota unit committed). -/
def admittedCount (s : RaceState) : Nat :=
  s.reqs.countP (fun p => p = ReqPhase.admitted)

/-- The profile raced on in the concrete overadmission trace: zero deep
units consumed, so with a limit of 1 the remaining quota is exactly 1. -/
def raceProfile0 : Profile :=
  { id := "u1", display_name := none, tier := "free",
    deep_research_count := 0, last_reset_date := 5,
    stripe_customer_id := none, created_at := 0 }

/-- Initial race state: two concurrent requests against remaining quota 1. -/
def raceS0 : RaceState := ⟨[raceProfile0], [ReqPhase.started, ReqPhase.started]⟩

/-- After request 0's check (reads count 0 < 1). -/
def raceS1 : RaceState := ⟨[raceProfile0], [ReqPhase.granted, ReqPhase.started]⟩

/-- After request 1's check (still reads count 0 < 1). -/
def raceS2 : RaceState := ⟨[raceProfile0], [ReqPhase.granted, ReqPhase.granted]⟩

/-- After request 0's commit. -/
def raceS3 : RaceState :=
  ⟨increment_deep_count 5 "u1" [raceProfile0],
   [ReqPhase.admitted, ReqPhase.granted]⟩

/-- After request 1's commit: both requests admitted. -/
def raceS4 : RaceState :=
  ⟨increment_deep_count 5 "u1" (increment_deep_count 5 "u1" [raceProfile0]),
   [ReqPhase.admitted, ReqPhase.admitted]⟩

/- ────────────────────────────────────────────────────────────────────────
   Progress/streaming coordinator, modelled from the spec (its server-side
   emitter is not part of the repository snapshot; src holds only the client
   reader).
   ──────────────────────────────────────────────────────────────────────── -/

/-- A server-sent event of the deep-research stream: an advisory `progress`
event, or a terminal `done` (full result payload) or `error` (message). -/
inductive SEvent (α : Type) where
  | progress (msg : JStr)
  | done (payload : α)
  | error (msg : JStr)
  deriving DecidableEq

/-- Whether an event is terminal (`done` or `error`). -/
def isTerminalEvent {α : Type} : SEvent α → Bool
  | SEvent.progress _ => false
  | SEvent.done _ => true
  | SEvent.error _ => true

/-- The coordinator's phase: still streaming, or closed by a terminal event. -/
inductive CoordPhase where
  | streaming
  | closedDone
  | closedError
  deriving DecidableEq

/-- Whether the stream has been closed by a terminal event. -/
def isClosed : CoordPhase → Bool
  | CoordPhase.streaming => false
  | CoordPhase.closedDone => true
  | CoordPhase.closedError => true

/-- Modelled from the spec: the Progress/Streaming Coordinator state machine
of the deep-research request (spec section 4.7), whose server-side emitter is
not part of the repository snapshot.  While streaming, the coordinator may
emit advisory `progress` events; emitting `done` or `error` closes the
stream, and a closed stream emits nothing further. -/
inductive CoordStep (α : Type) : CoordPhase → SEvent α → CoordPhase → Prop where
  | emitProgress (m : JStr) :
      CoordStep α CoordPhase.streaming (SEvent.progress m) CoordPhase.streaming
  | emitDone (p : α) :
      CoordStep α CoordPhase.streaming (SEvent.done p) CoordPhase.closedDone
  | emitError (m : JStr) :
      CoordStep α CoordPhase.streaming (SEvent.error m) CoordPhase.closedError

/-- A run of the coordinator: the list of events emitted between two phases. -/
inductive CoordRun (α : Type) : CoordPhase → List (SEvent α) → CoordPhase → Prop where
  | nil (s : CoordPhase) : CoordRun α s [] s
  | cons {s s2 s3 : CoordPhase} {e : SEvent α} {es : List (SEvent α)}
      (h : CoordStep α s e s2) (t : CoordRun α s2 es s3) :
      CoordRun α s (e :: es) s3

/- ────────────────────────────────────────────────────────────────────────
   Idea input and submission, from the dashboard page
   (src/frontend/app/appgroup/dashboard/page.tsx) and the landing page
   (src/unnamed/part_001).
   ──────────────────────────────────────────────────────────────────────── -/

/-- An update to the dashboard's idea state: a textarea change
(`setIdea(e.target.value.slice(0, 500))`), or the effect reacting to the
`idea` URL query parameter (`if (newIdea && newIdea !== currentIdea) ...
return newIdea`), which stores the parameter without truncation. -/
inductive IdeaEvent where
  | typed (s : JStr)
  | urlPrefill (s : JStr)
  deriving DecidableEq

/-- One idea-state update of the dashboard page. -/
def ideaStep (cur : JStr) : IdeaEvent → JStr
  | IdeaEvent.typed s => s.take 500
  | IdeaEvent.urlPrefill s => if s ≠ [] ∧ s ≠ cur then s else cur

/-- The idea state after a sequence of updates from an initial value. -/
def ideaStateFrom (init : JStr) (evs : List IdeaEvent) : JStr :=
  evs.foldl ideaStep init

/-- `handleAnalyze`: submission is skipped when the trimmed idea is empty
(`if (!idea.trim() || loading) return;`); otherwise the analysis request is
issued carrying the idea state as-is. -/
def submitIdea (st : JStr) : Option JStr :=
  if jsTrim st = [] then none else some st

/-- A 501-character idea text. -/
def longIdea : JStr := List.replicate 501 'a'

/- ────────────────────────────────────────────────────────────────────────
   Concrete sample values used by witnesses and counterexamples.
   ──────────────────────────────────────────────────────────────────────── -/

/-- Toy JSON decoder for concrete runs of the SSE parser: only the payload
`"OK"` decodes (to `7`). -/
def parseT : JStr → Option Nat := fun s => if s = "OK".toList then some 7 else none

/-- Toy `.message` accessor for concrete runs of the SSE parser. -/
def msgT : Nat → Option JStr := fun _ => some "hi".toList

/-- A well-formed progress block. -/
def progressBlock : JStr := "event: progress\ndata: OK".toList

/-- Sample profile rows. -/
def pA : Profile :=
  { id := "a", display_name := none, tier := "free", deep_research_count := 2,
    last_reset_date := 3, stripe_customer_id := none, created_at := 1 }

/-- Second sample profile row. -/
def pB : Profile :=
  { id := "b", display_name := some "Bee", tier := "premium",
    deep_research_count := 0, last_reset_date := 3,
    stripe_customer_id := some "cus_1", created_at := 2 }

/-- A profile whose stored reset date (day 6) is older than the check day. -/
def pStale : Profile :=
  { id := "u2", display_name := none, tier := "free", deep_research_count := 2,
    last_reset_date := 6, stripe_customer_id := none, created_at := 0 }

/-- A profile already reset on the check day. -/
def pFresh : Profile :=
  { id := "u3", display_name := none, tier := "free", deep_research_count := 1,
    last_reset_date := 7, stripe_customer_id := none, created_at := 0 }

/-- An anonymous usage row created (and last active) on day 6 with both
counters consumed. -/
def anonRow0 : AnonUsage := { ip_hash := "h1", fast_count := 3, deep_count := 1, created_at := 6 }

/-- A completed research row owned by `"u1"`. -/
def rDone : ResearchRow :=
  { id := "r1", user_id := some "u1", idea_text := "standup bot",
    category := none, analysis_type := "deep",
    result := some [("verdict", "ship")], status := RStatus.completed,
    notes := none, created_at := 0 }

/-- The same row with its status written back to `processing`. -/
def rBack : ResearchRow := { rDone with status := RStatus.processing }

/-- A row stuck in `processing` since clock 0. -/
def rProcOld : ResearchRow :=
  { id := "r2", user_id := some "u1", idea_text := "x", category := none,
    analysis_type := "deep", result := none, status := RStatus.processing,
    notes := none, created_at := 0 }

/-- A fresh `processing` row (clock 1000). -/
def rProcNew : ResearchRow := { rProcOld with id := "r3", created_at := 1000 }

/- ────────────────────────────────────────────────────────────────────────
   Theorems.
   ──────────────────────────────────────────────────────────────────────── -/

/-- C10: `increment_deep_count u` leaves the table the same length, leaves
every row whose id differs from `u` unchanged, rewrites a row whose id is `u`
to the same row with `deep_research_count` one larger and `last_reset_date`
the current date (all other columns unchanged), and is the identity when no
row matches. -/
theorem increment_deep_count_frame (today : Nat) (u : String) (db : List Profile) :
    (increment_deep_count today u db).length = db.length ∧
    (∀ (i : Nat) (r : Profile), db[i]? = some r → r.id ≠ u →
      (increment_deep_count today u db)[i]? = some r) ∧
    (∀ (i : Nat) (r : Profile), db[i]? = some r → r.id = u →
      (increment_deep_count today u db)[i]? = some
        { id := r.id, display_name := r.display_name, tier := r.tier,
          deep_research_count := r.deep_research_count + 1,
          last_reset_date := today,
          stripe_customer_id := r.stripe_customer_id,
          created_at := r.created_at }) ∧
    ((∀ r ∈ db, r.id ≠ u) → increment_deep_count today u db = db) := by
  refine ⟨by simp [increment_deep_count], ?_, ?_, ?_⟩
  · intro i r h hne
    simp [increment_deep_count, List.getElem?_map, h, hne]
  · intro i r h hid
    cases r
    simp_all [increment_deep_count, List.getElem?_map]
  · intro h
    induction db with
    | nil => rfl
    | cons a t ih =>
      have ha : a.id ≠ u := h a (by simp)
      have ht : increment_deep_count today u t = t :=
        ih (fun r hr => h r (by simp [hr]))
      simp only [increment_deep_count, List.map_cons, if_neg ha] at ht ⊢
      rw [show t.map _ = t from ht]

/-- Witness for C10 at a concrete two-row table. -/
theorem increment_deep_count_frame_witness :
    (increment_deep_count 9 "a" [pA, pB])[1]? = some pB ∧
    (increment_deep_count 9 "a" [pA, pB])[0]? = some
      { id := "a", display_name := none, tier := "free",
        deep_research_count := 3, last_reset_date := 9,
        stripe_customer_id := none, created_at := 1 } ∧
    increment_deep_count 9 "c" [pA, pB] = [pA, pB] := by
  refine ⟨?_, ?_, ?_⟩
  · exact (increment_deep_count_frame 9 "a" [pA, pB]).2.1 1 pB (by decide) (by decide)
  · exact (increment_deep_count_frame 9 "a" [pA, pB]).2.2.1 0 pA (by decide) (by decide)
  · exact (increment_deep_count_frame 9 "c" [pA, pB]).2.2.2 (by decide)

/-- C2 counterexample: an anonymous usage row consumed on day 6 still holds
its counts after a quota check on day 7 — the stored fast and deep counts do
not reset to zero at the first check on a differing date, because the
`anon_usage` table stores no last-reset date to compare. -/
theorem anon_counts_survive_new_day :
    (anonAtCheck 7 anonRow0).fast_count = 3 ∧
    (anonAtCheck 7 anonRow0).deep_count = 1 ∧
    ¬ ((anonAtCheck 7 anonRow0).fast_count = 0 ∧
       (anonAtCheck 7 anonRow0).deep_count = 0) := by
  decide

/-- C2 amended: the daily window belongs to the authenticated ledger only —
an authenticated profile's stored deep count is zeroed (and its reset date
moved up) at the first quota check whose date differs from the stored
`last_reset_date`, and is untouched when the dates agree, while an anonymous
usage row's stored counts are never reset by a check. -/
theorem daily_reset_only_authenticated (today : Nat) (p : Profile) (r : AnonUsage) :
    (p.last_reset_date ≠ today →
      (profileAtCheck today p).deep_research_count = 0 ∧
      (profileAtCheck today p).last_reset_date = today) ∧
    (p.last_reset_date = today → profileAtCheck today p = p) ∧
    anonAtCheck today r = r := by
  refine ⟨?_, ?_, rfl⟩
  · intro h
    simp [profileAtCheck, h]
  · intro h
    simp [profileAtCheck, h]

/-- Witness for the amended C2 at concrete rows. -/
theorem daily_reset_only_authenticated_witness :
    ((profileAtCheck 7 pStale).deep_research_count = 0 ∧
     (profileAtCheck 7 pStale).last_reset_date = 7) ∧
    profileAtCheck 7 pFresh = pFresh ∧
    anonAtCheck 7 anonRow0 = anonRow0 :=
  ⟨(daily_reset_only_authenticated 7 pStale anonRow0).1 (by decide),
   (daily_reset_only_authenticated 7 pFresh anonRow0).2.1 (by decide),
   (daily_reset_only_authenticated 7 pFresh anonRow0).2.2⟩

/-- C1: with a remaining deep quota of exactly 1 (stored count 0, limit 1)
and two concurrent requests, the interleaving check-0, check-1, commit-0,
commit-1 is a reachable run in which both requests are admitted and the
stored count ends at 2 — the storage layer's `increment_deep_count` performs
no quota comparison, so the separate read-then-commit sequence overadmits. -/
theorem quota_race_overadmits :
    Relation.ReflTransGen (RaceStep 1 5 "u1") raceS0 raceS4 ∧
    deepCountOf "u1" raceS0.db = 0 ∧
    raceS0.reqs.length = 2 ∧
    admittedCount raceS4 = 2 ∧
    deepCountOf "u1" raceS4.db = 2 := by
  refine ⟨?_, by decide, by decide, by decide, by decide⟩
  have h1 : RaceStep 1 5 "u1" raceS0 raceS1 :=
    RaceStep.checkGrant [raceProfile0] [ReqPhase.started, ReqPhase.started] 0
      (by decide) (by decide)
  have h2 : RaceStep 1 5 "u1" raceS1 raceS2 :=
    RaceStep.checkGrant [raceProfile0] [ReqPhase.granted, ReqPhase.started] 1
      (by decide) (by decide)
  have h3 : RaceStep 1 5 "u1" raceS2 raceS3 :=
    RaceStep.commit [raceProfile0] [ReqPhase.granted, ReqPhase.granted] 0
      (by decide)
  have h4 : RaceStep 1 5 "u1" raceS3 raceS4 :=
    RaceStep.commit (increment_deep_count 5 "u1" [raceProfile0])
      [ReqPhase.admitted, ReqPhase.granted] 1 (by decide)
  exact Relation.ReflTransGen.tail
    (Relation.ReflTransGen.tail
      (Relation.ReflTransGen.tail (Relation.ReflTransGen.single h1) h2) h3) h4

/-- A closed stream emits nothing further: any run starting in a closed phase
is empty and stays put. -/
theorem coordRun_closed {α : Type} {p : CoordPhase} {es : List (SEvent α)}
    {q : CoordPhase} (h : CoordRun α p es q) (hp : isClosed p = true) :
    es = [] ∧ q = p := by
  cases h with
  | nil => exact ⟨rfl, rfl⟩
  | cons hs _ => cases hs <;> simp [isClosed] at hp

/-- C3: every complete run of the deep-research stream coordinator — a run
from the streaming phase to a closed phase — emits exactly one terminal event
(`done` or `error`); the trace is zero or more `progress` events followed by
the single terminal event. -/
theorem stream_one_terminal {α : Type} (tr : List (SEvent α)) (phase : CoordPhase)
    (h : CoordRun α CoordPhase.streaming tr phase) (hc : isClosed phase = true) :
    tr.countP (fun e => isTerminalEvent e) = 1 ∧
    ∃ pre last, tr = pre ++ [last] ∧ isTerminalEvent last = true ∧
      ∀ e ∈ pre, isTerminalEvent e = false := by
  suffices aux : ∀ (s : CoordPhase) (tr2 : List (SEvent α)) (q : CoordPhase),
      CoordRun α s tr2 q → s = CoordPhase.streaming → isClosed q = true →
      tr2.countP (fun e => isTerminalEvent e) = 1 ∧
      ∃ pre last, tr2 = pre ++ [last] ∧ isTerminalEvent last = true ∧
        ∀ e ∈ pre, isTerminalEvent e = false by
    exact aux _ _ _ h rfl hc
  intro s tr2 q hrun
  induction hrun with
  | nil s =>
    intro hs hq
    subst hs
    simp [isClosed] at hq
  | cons hs t ih =>
    intro hstream hq
    subst hstream
    cases hs with
    | emitProgress m =>
      obtain ⟨hcount, pre, last, htr, hterm, hpre⟩ := ih rfl hq
      refine ⟨?_, SEvent.progress m :: pre, last, by simp [htr], hterm, ?_⟩
      · rw [List.countP_cons]
        have : isTerminalEvent (SEvent.progress m : SEvent α) = false := rfl
        simp only [this]
        simpa using hcount
      intro e he
      rcases List.mem_cons.mp he with he | he
      · subst he
        simp [isTerminalEvent]
      · exact hpre e he
    | emitDone p =>
      obtain ⟨he, _⟩ := coordRun_closed t (by simp [isClosed])
      subst he
      exact ⟨by simp [List.countP_cons, isTerminalEvent], [], SEvent.done p,
        by simp, by simp [isTerminalEvent], by simp⟩
    | emitError m =>
      obtain ⟨he, _⟩ := coordRun_closed t (by simp [isClosed])
      subst he
      exact ⟨by simp [List.countP_cons, isTerminalEvent], [], SEvent.error m,
        by simp, by simp [isTerminalEvent], by simp⟩

/-- Witness for C3 at a concrete complete run. -/
theorem stream_one_terminal_witness :
    ([SEvent.progress "planning queries".toList,
      SEvent.done (42 : Nat)].countP (fun e => isTerminalEvent e)) = 1 :=
  (stream_one_terminal
    [SEvent.progress "planning queries".toList, SEvent.done (42 : Nat)]
    CoordPhase.closedDone
    (CoordRun.cons (CoordStep.emitProgress "planning queries".toList)
      (CoordRun.cons (CoordStep.emitDone 42) (CoordRun.nil CoordPhase.closedDone)))
    rfl).1

/-- C4: for a block the stream client parses (not a comment block) that has a
`data: ` line with a decodable payload, the progress callback fires with the
payload's message exactly when the block's event name is `progress`, the done
callback fires with the full payload exactly when it is `done`, the error
callback fires with the payload's message exactly when it is `error`, and any
other event name fires no callback. -/
theorem sse_dispatch {J : Type} (parse : JStr → Option J) (msg : J → Option JStr)
    (block dl : JStr) (d : J)
    (hb : ¬ block.head? = some ':')
    (hd : findLine dataLinePre (splitLines block) = some dl)
    (hp : parse (dl.drop 6) = some d) :
    processBlock parse msg block =
      (if eventName (splitLines block) = "progress".toList then
        [Emit.progress (msg d)]
      else if eventName (splitLines block) = "done".toList then
        [Emit.done d]
      else if eventName (splitLines block) = "error".toList then
        [Emit.error (msg d)]
      else []) := by
  simp [processBlock, hb, hd, hp]

/-- Witness for C4 at a concrete progress block. -/
theorem sse_dispatch_witness :
    processBlock parseT msgT progressBlock = [Emit.progress (some "hi".toList)] := by
  have h := sse_dispatch parseT msgT progressBlock "data: OK".toList 7
    (by decide) (by decide) (by decide)
  rw [h]
  decide

/-- C9: the stream reader is a total function of the byte stream — the input
is split into blank-line-separated blocks with a carry buffer and every
completed block is processed in order — and a comment block (leading `:`), a
block without a `data: ` line, and a block whose `data: ` payload does not
decode are all dropped without invoking any callback. -/
theorem sse_parser_skips {J : Type} (parse : JStr → Option J) (msg : J → Option JStr)
    (buffer : JStr) (chunks : List JStr) (block : JStr) :
    (feedChunks parse msg buffer chunks =
      (completedBlocks buffer chunks).flatMap (processBlock parse msg)) ∧
    (block.head? = some ':' → processBlock parse msg block = []) ∧
    (findLine dataLinePre (splitLines block) = none →
      processBlock parse msg block = []) ∧
    (∀ dl, findLine dataLinePre (splitLines block) = some dl →
      parse (dl.drop 6) = none → processBlock parse msg block = []) := by
  refine ⟨?_, ?_, ?_, ?_⟩
  · induction chunks generalizing buffer with
    | nil => rfl
    | cons c cs ih =>
      simp [feedChunks, completedBlocks, ih]
  · intro h
    simp [processBlock, h]
  · intro h
    by_cases hb : block.head? = some ':' <;> simp [processBlock, h, hb]
  · intro dl hdl hp
    by_cases hb : block.head? = some ':' <;> simp [processBlock, hdl, hp, hb]

/-- Witness for C9 at concrete blocks and a concrete chunk stream. -/
theorem sse_parser_skips_witness :
    processBlock parseT msgT ":keepalive".toList = [] ∧
    processBlock parseT msgT "event: progress".toList = [] ∧
    processBlock parseT msgT "data: BAD".toList = [] ∧
    feedChunks parseT msgT [] [":a\n\nevent: x".toList] =
      (completedBlocks [] [":a\n\nevent: x".toList]).flatMap
        (processBlock parseT msgT) := by
  refine ⟨?_, ?_, ?_, ?_⟩
  · exact (sse_parser_skips parseT msgT [] [] ":keepalive".toList).2.1 (by decide)
  · exact (sse_parser_skips parseT msgT [] [] "event: progress".toList).2.2.1
      (by decide)
  · exact (sse_parser_skips parseT msgT [] [] "data: BAD".toList).2.2.2
      "data: BAD".toList (by decide) (by decide)
  · exact (sse_parser_skips parseT msgT [] [":a\n\nevent: x".toList] "x".toList).1

/-- C5: the additional sources shown beyond the competitors are exactly the
raw sources whose normalized URL (case-folded, trailing slash stripped)
matches no competitor's normalized URL and whose normalized title
(case-folded, trimmed) matches no competitor's normalized name. -/
theorem extraSources_eq_spec (cs : List CompetitorItem) (rs : List RawSource) :
    extraSources cs rs = extraSourcesSpec cs rs := by
  unfold extraSources extraSourcesSpec
  apply List.filter_congr
  intro s _
  rw [Bool.eq_iff_iff]
  simp [List.mem_map]

/-- C6 counterexample: the row-level-security update policy on `research`
constrains only row ownership, so the owning identity is permitted an update
that writes a `completed` row's status back to `processing` — status
monotonicity does not hold under every permitted operation. -/
theorem status_regression_allowed_by_rls :
    rlsAllows researchPolicies (ApiRole.authenticated "u1") SqlCmd.updateCmd
      rDone rBack = true ∧
    rDone.status = RStatus.completed ∧
    rBack.status = RStatus.processing := by
  decide

/-- C6 amended: under the pipeline, notes and janitor operations the status
never regresses from `completed` or `failed` back to `processing`; the
janitor rewrites exactly the `processing` rows older than 10 minutes to
`failed` with the timeout error recorded in their result (all other columns
kept), and touches no other row.  (An owner-issued update through the
row-level-security policy is the one permitted operation that can still write
an arbitrary status.) -/
theorem research_status_monotonic_ops :
    (∀ r r2 : ResearchRow, RowStep r r2 →
      (r.status = RStatus.completed ∨ r.status = RStatus.failed) →
      r2.status = r.status) ∧
    (∀ (now : Int) (db : List ResearchRow) (i : Nat) (r : ResearchRow),
      db[i]? = some r → r.status ≠ RStatus.processing →
      (cleanup_stuck_research now db).1[i]? = some r) ∧
    (∀ (now : Int) (db : List ResearchRow) (i : Nat) (r : ResearchRow),
      db[i]? = some r → r.status = RStatus.processing →
      r.created_at < now - tenMinutes →
      (cleanup_stuck_research now db).1[i]? = some
        { id := r.id, user_id := r.user_id, idea_text := r.idea_text,
          category := r.category, analysis_type := r.analysis_type,
          result := some timeoutResult, status := RStatus.failed,
          notes := r.notes, created_at := r.created_at }) ∧
    (∀ (now : Int) (db : List ResearchRow) (i : Nat) (r : ResearchRow),
      db[i]? = some r → r.status = RStatus.processing →
      ¬ r.created_at < now - tenMinutes →
      (cleanup_stuck_research now db).1[i]? = some r) := by
  refine ⟨?_, ?_, ?_, ?_⟩
  · intro r r2 hstep hterm
    cases hstep <;> rcases hterm with hterm | hterm <;> simp_all
  · intro now db i r h hne
    have hcond : ¬ (r.status = RStatus.processing ∧ r.created_at < now - tenMinutes) :=
      fun hc => hne hc.1
    simp [cleanup_stuck_research, List.getElem?_map, h, hcond]
  · intro now db i r h hs hold
    cases r
    simp_all [cleanup_stuck_research, List.getElem?_map]
  · intro now db i r h hs hold
    have hcond : ¬ (r.status = RStatus.processing ∧ r.created_at < now - tenMinutes) :=
      fun hc => hold hc.2
    simp [cleanup_stuck_research, List.getElem?_map, h, hcond]

/-- Witness for the amended C6 at a concrete notes update and a concrete
three-row sweep at clock 1000. -/
theorem research_status_monotonic_ops_witness :
    ({ rDone with notes := some "n" } : ResearchRow).status = rDone.status ∧
    (cleanup_stuck_research 1000 [rDone, rProcOld, rProcNew]).1[0]? = some rDone ∧
    (cleanup_stuck_research 1000 [rDone, rProcOld, rProcNew]).1[1]? = some
      { id := "r2", user_id := some "u1", idea_text := "x", category := none,
        analysis_type := "deep", result := some timeoutResult,
        status := RStatus.failed, notes := none, created_at := 0 } ∧
    (cleanup_stuck_research 1000 [rDone, rProcOld, rProcNew]).1[2]? = some rProcNew := by
  refine ⟨?_, ?_, ?_, ?_⟩
  · exact research_status_monotonic_ops.1 rDone _ (RowStep.setNotes rDone "n")
      (Or.inl (by decide))
  · exact research_status_monotonic_ops.2.1 1000 [rDone, rProcOld, rProcNew] 0 rDone
      (by decide) (by decide)
  · exact research_status_monotonic_ops.2.2.1 1000 [rDone, rProcOld, rProcNew] 1
      rProcOld (by decide) (by decide) (by decide)
  · exact research_status_monotonic_ops.2.2.2 1000 [rDone, rProcOld, rProcNew] 2
      rProcNew (by decide) (by decide) (by decide)

/-- C7 counterexample: a 501-character idea arriving through the dashboard's
URL query parameter is stored untruncated and submitted as-is — an analysis
request is issued carrying an idea text longer than 500 characters, and the
oversized submission is not rejected. -/
theorem url_prefill_bypasses_bound :
    submitIdea (ideaStateFrom [] [IdeaEvent.urlPrefill longIdea]) = some longIdea ∧
    500 < longIdea.length := by
  constructor
  · decide
  · simp [longIdea]

/-- C7 amended: idea text entered through the textarea is truncated (not
rejected) to 500 characters on every change, so along any typed-only input
history the idea state, and hence any submitted idea text, never exceeds 500
characters. -/
theorem typed_input_bounded (init : JStr) (evs : List IdeaEvent)
    (hinit : init.length ≤ 500)
    (h : ∀ e ∈ evs, ∃ s, e = IdeaEvent.typed s) :
    (ideaStateFrom init evs).length ≤ 500 ∧
    ∀ out, submitIdea (ideaStateFrom init evs) = some out → out.length ≤ 500 := by
  have hlen : ∀ (evs2 : List IdeaEvent) (st : JStr), st.length ≤ 500 →
      (∀ e ∈ evs2, ∃ s, e = IdeaEvent.typed s) →
      (ideaStateFrom st evs2).length ≤ 500 := by
    intro evs2
    induction evs2 with
    | nil =>
      intro st hst _
      simpa [ideaStateFrom] using hst
    | cons e t ih =>
      intro st hst he
      obtain ⟨s, rfl⟩ := he e (by simp)
      have hstep : (ideaStep st (IdeaEvent.typed s)).length ≤ 500 := by
        simp [ideaStep]
      have := ih (ideaStep st (IdeaEvent.typed s)) hstep
        (fun e2 he2 => he e2 (by simp [he2]))
      simpa [ideaStateFrom] using this
  refine ⟨hlen evs init hinit h, ?_⟩
  intro out hout
  unfold submitIdea at hout
  split at hout
  · cases hout
  · cases hout
    exact hlen evs init hinit h

/-- Witness for the amended C7: a 600-character typed input is submitted
truncated to 500 characters. -/
theorem typed_input_bounded_witness :
    (ideaStateFrom [] [IdeaEvent.typed (List.replicate 600 'b')]).length ≤ 500 :=
  (typed_input_bounded [] [IdeaEvent.typed (List.replicate 600 'b')] (by simp)
    (by intro e he; simp at he; exact ⟨List.replicate 600 'b', he⟩)).1

/-- On an authenticated role, the policy clause `(SELECT auth.uid()) = user_id`
holds exactly of the rows owned by that identity. -/
theorem evalClause_auth (uid : String) (row : ResearchRow) :
    evalClause RlsClause.uidEqUserId (ApiRole.authenticated uid) row =
      decide (row.user_id = some uid) := by
  cases hrow : row.user_id with
  | none => simp [evalClause, authUid, hrow]
  | some b =>
    simp only [evalClause, authUid, hrow, Option.some.injEq]
    rw [Bool.eq_iff_iff]
    simp [eq_comm]

/-- C8: under the four `research` policies, the anonymous role is denied
every command, and an authenticated identity is allowed exactly the rows it
owns — select and delete require the existing row's `user_id` to equal its
id, insert requires the new row's `user_id` to equal its id, and update
requires both. -/
theorem research_rls_owner_only (uid : String) (cmd : SqlCmd)
    (old new : ResearchRow) :
    rlsAllows researchPolicies ApiRole.anon cmd old new = false ∧
    rlsAllows researchPolicies (ApiRole.authenticated uid) cmd old new =
      (match cmd with
       | SqlCmd.selectCmd => decide (old.user_id = some uid)
       | SqlCmd.insertCmd => decide (new.user_id = some uid)
       | SqlCmd.updateCmd =>
         decide (old.user_id = some uid) && decide (new.user_id = some uid)
       | SqlCmd.deleteCmd => decide (old.user_id = some uid)) := by
  constructor
  · cases cmd <;> simp [rlsAllows, researchPolicies, policyApplies]
  · cases cmd <;>
      simp [rlsAllows, researchPolicies, policyApplies, evalClause_auth]

end ShipOrSkip
